import Mathlib

/-!
Verification development for the DICOM de-identification pipeline
(`local_deid.py` and `pixel_deid.py`).  The Python source is embedded
shallowly: pure fragments become Lean functions, the mutable run state
(accession UID cache, folder token cache, manifest list) becomes explicit
state passing, and exception-driven control flow becomes explicit
branching on outcome flags.
-/

namespace DICOMDeID

/-- The apostrophe character, written via its code point. -/
def apChar : Char := Char.ofNat 39

/-- One-character string holding an apostrophe (used in DICOM element
descriptions such as the patient name attribute). -/
def apS : String := String.mk [apChar]

/-- `normalize_tag` from `local_deid.py` (line 235): Python
`tag_name.replace(" ", "").lower()` — drop every space character and
lower-case the rest.  Modelled on the character list of the string. -/
def normalizeTag (s : String) : String :=
  String.mk ((s.data.filter (fun c => !(c == ' '))).map Char.toLower)

/-- `KEEP_TAGS` from `local_deid.py` lines 17–46, verbatim (the entries
with an apostrophe are assembled via `apS`). -/
def KEEP_TAGS : List String := [
  "AcquisitionMatrix", "AngioFlag", "BurnedInAnnotation", "CodeMeaning", "CodeValue",
  "CodingSchemeDesignator", "dBdt", "DeidentificationMethodCodeSequence", "DeviceSerialNumber",
  "EchoNumbers", "EchoTime", "EchoTrainLength", "FlipAngle", "FrameOfReferenceUID",
  "ImageOrientation", "ViewName", "ImageOrientationPatient", "ImageOrientationSlide",
  "ImagePosition", "ImagePositionPatient", "ImageType", "ImagingFrequency",
  "InPlanePhaseEncodingDirection", "InstanceNumber", "InstitutionAddress",
  "InstitutionName", "InversionTime", "Laterality", "LongCodeValue",
  "MagneticFieldStrength", "Manufacturer", "ManufacturerModelName", "Modality",
  "MRAcquisitionType", "NumberOfAverages", "NumberOfPhaseEncodingSteps", "NumberOfSlices",
  "NumberOfTimeSlices", "PatientPosition", "PercentPhaseFieldOfView", "PercentSampling",
  "PerformedProcedureStepDescription", "PixelBandwidth", "PixelSpacing",
  "PositionReferenceIndicator", "ProtocolName", "RepetitionTime", "RequestedProcedureDescription",
  "SAR", "ScanningSequence", "ScanOptions", "SequenceName", "SequenceVariant",
  "SeriesDescription", "SeriesNumber", "SliceLocation", "SliceThickness", "SoftwareVersions",
  "SOPClassUID", "SourceOrientation", "SourcePosition", "SpacingBetweenSlices",
  "StationName", "StudyDescription", "URNCodeValue", "VariableFlipAngleFlag", "Specific Character Set",
  "SOP Instance UID", "Manufacturer" ++ apS ++ "s Model Name", "Anatomic Region",
  "Sequence", "Body Part Examined", "Imager Pixel Spacing", "Relative X-Ray Exposure", "Exposure Index",
  "Target Exposure Index", "Deviation Index", "Detector Type", "Detector Configuration", "Patient Orientation",
  "Image Laterality", "Samples per Pixel", "Photometric Interpretation", "Rows", "Columns", "Bits Allocated",
  "Bits Stored", "High Bit", "Pixel Representation", "Longitudinal Temporal Information Modified",
  "Pixel Intensity Relationship", "Pixel Intensity Relationship Sign", "Window Center", "Window Width",
  "Rescale Intercept", "Rescale Slope", "Rescale Type", "Window Center & Width Explanation",
  "Lossy Image Compression", "Acquisition Context Sequence", "Filler Order Number / Imaging Service Request",
  "Presentation LUT Shape", "Pixel Data", "Planar Configuration", "planarconfiguration", "pixelaspectratio", "numberofframes",
  "referencedperformedprocedurestepsequence", "performedprotocolcodesequence", "requestattributessequence", "procedurecodesequence",
  "anatomicregionsequence", "acquisitioncontextsequence", "sequenceofultrasoundregions", "ultrasoundcolordatapresent",
  "transducerdata"]

/-- `REPLACEMENT_TAGS` from `local_deid.py` lines 48–51, verbatim. -/
def REPLACEMENT_TAGS : List String := [
  "AccessionNumber", "PatientID", "PatientName", "StudyID", "PatientIdentityRemoved",
  "StudyInstanceUID", "SeriesInstanceUID", "SOPInstanceUID", "MediaStorageSOPInstanceUID"]

/-- `keep_normalized` (line 141): the keep list after normalization. -/
def keepNormalized : List String := KEEP_TAGS.map normalizeTag

/-- The normalized replacement set recomputed at line 153. -/
def replNormalized : List String := REPLACEMENT_TAGS.map normalizeTag

/-- Element values: strings, integers, or raw byte buffers; the Python
scrub writes an empty string, modelled as `DVal.str ""`. -/
inductive DVal where
  | str : String → DVal
  | nat : Nat → DVal
  | raw : List Nat → DVal
deriving DecidableEq, Repr

/-- An element nested inside a sequence item of some top-level element,
as visited by the flattened iteration (`ds.iterall()`).  When the sweep
loop reaches it, both `ds[elem.tag].value = ''` and `del ds[elem.tag]`
raise a lookup error — its tag is not addressable at the dataset's top
level — and the outer handler continues, so its own visit never changes
the dataset: its fate is decided entirely by what happens to its
top-level ancestor.  (A nested element whose tag coincidentally also
exists at the dataset's top level is out of scope of this model.) -/
structure NElem where
  name : String
  value : DVal
  isPrivate : Bool
deriving DecidableEq, Repr

/-- One top-level data element: its descriptive name (the DICOM
description string, e.g. `SOP Instance UID`), its value, whether its tag
is private, and the flattened list of all elements nested anywhere
inside it (empty for non-sequence elements).  Wiping, deleting or
overwriting the top-level element destroys that entire nested
content. -/
structure Elem where
  name : String
  value : DVal
  isPrivate : Bool
  nested : List NElem
deriving DecidableEq, Repr

/-- Attribute assignment by keyword (`ds.X = v`): replace the whole
content of the top-level element carrying the keyword's descriptive name
with the assigned scalar value (nothing remains nested), or append a
fresh top-level element when none exists. -/
def setTag (ds : List Elem) (nm : String) (v : DVal) : List Elem :=
  if ds.any (fun e => e.name = nm) then
    ds.map (fun e => if e.name = nm then { e with value := v, nested := [] } else e)
  else
    ds ++ [{ name := nm, value := v, isPrivate := false, nested := [] }]

/-- Descriptive name of the patient name attribute (contains an
apostrophe). -/
def patientsName : String := "Patient" ++ apS ++ "s Name"

/-- The identity replacement step, `local_deid.py` lines 120–127: the
eight keyword assignments in source order. -/
def replacementStep (ds : List Elem) (deidAcc studyUid seriesUid sopUid : String) : List Elem :=
  setTag (setTag (setTag (setTag (setTag (setTag (setTag (setTag ds
    "Accession Number" (.str deidAcc))
    "Patient ID" (.str deidAcc))
    patientsName (.str deidAcc))
    "Study ID" (.str deidAcc))
    "Patient Identity Removed" (.str "YES"))
    "Study Instance UID" (.str studyUid))
    "Series Instance UID" (.str seriesUid))
    "SOP Instance UID" (.str sopUid)

/-- Disposition of one top-level element under the generic sweep,
`local_deid.py` lines 147–168.  Keep-list names and replacement-set
names are skipped with their whole content; private elements are
deleted outright; every other top-level element has its value cleared
in place, which for a sequence empties it — every element nested inside
it disappears from the output (had the clear raised instead, the
fallback delete would remove the element with its content just the
same).  The loop also visits the nested elements themselves, but their
clear and delete both raise and the handler continues, so those visits
change nothing: a subtree's fate rests entirely with its top-level
element, which is why the sweep is a map over top-level elements. -/
def sweepElem (e : Elem) : Option Elem :=
  if normalizeTag e.name ∈ keepNormalized then some e
  else if normalizeTag e.name ∈ replNormalized then some e
  else if e.isPrivate then none
  else some { e with value := DVal.str "", nested := [] }

/-- The generic sweep over the dataset's top-level elements. -/
def sweep (ds : List Elem) : List Elem := ds.filterMap sweepElem

/-- Attribute read by keyword (`ds.X`): the value of the top-level
element carrying the keyword's descriptive name, when present. -/
def getTag (ds : List Elem) (nm : String) : Option DVal :=
  (ds.find? (fun e => e.name = nm)).map (fun e => e.value)

/-- The metadata re-assertion inside `DicomPixelRedactor.redact`
(`pixel_deid.py` lines 32 and 49–55): read `BitsAllocated`, then write
the redacted pixel buffer and re-assert `BitsAllocated`, `BitsStored`,
`HighBit = bits - 1` and `PixelRepresentation = 0`.  If the bit depth
cannot be read the access raises before the guarded block and nothing
below runs. -/
def redactMeta (ds : List Elem) (redactedPix : List Nat) : List Elem :=
  match getTag ds "Bits Allocated" with
  | some (DVal.nat bits) =>
    setTag (setTag (setTag (setTag (setTag ds
      "Pixel Data" (.raw redactedPix))
      "Bits Allocated" (.nat bits))
      "Bits Stored" (.nat bits))
      "High Bit" (.nat (bits - 1)))
      "Pixel Representation" (.nat 0)
  | _ => ds

/-- The file meta header built at `local_deid.py` lines 130–134. -/
structure FileMeta where
  mediaStorageSOPClassUID : String
  mediaStorageSOPInstanceUID : String
  implementationClassUID : String
  transferSyntaxUID : String
deriving DecidableEq, Repr

/-- The explicit VR little endian transfer syntax identifier. -/
def EXPLICIT_VR_LITTLE_ENDIAN : String := "1.2.840.10008.1.2.1"

/-- `FileMetaDataset` construction, `local_deid.py` lines 130–134: both
media storage identifiers are set to the freshly generated instance UID. -/
def buildFileMeta (sopUid : String) : FileMeta :=
  { mediaStorageSOPClassUID := sopUid
    mediaStorageSOPInstanceUID := sopUid
    implementationClassUID := "1.3.6.1.4.1.11129.5.1"
    transferSyntaxUID := EXPLICIT_VR_LITTLE_ENDIAN }

/-- The per-file metadata pipeline of `process_file`: identity
replacement (lines 120–127), file meta construction (130–136), generic
sweep (147–168), then the redactor's metadata re-assertion before the
write (`pixel_deid.py` 49–55). -/
def tagPipeline (ds : List Elem) (deidAcc studyUid seriesUid sopUid : String)
    (redactedPix : List Nat) : List Elem × FileMeta :=
  let ds1 := replacementStep ds deidAcc studyUid seriesUid sopUid
  let ds2 := sweep ds1
  let ds3 := redactMeta ds2 redactedPix
  (ds3, buildFileMeta sopUid)

/-- A timestamp as sampled by `datetime.now()` in
`UIDGenerator.generate` (`local_deid.py` lines 224–230). -/
structure Timestamp where
  year : Nat
  month : Nat
  day : Nat
  hour : Nat
  minute : Nat
  second : Nat
  microsecond : Nat
deriving DecidableEq, Repr

/-- The organizational UID root (`local_deid.py` line 220). -/
def ORG_ROOT : String := "1.3.6.1.4.1.11129.5.1"

/-- The formatted UID built at line 227: the root followed by year,
month, day, minute, second and microsecond.  The hour field of the
sampled time is not part of the format string in the source. -/
def formatUid (t : Timestamp) : String :=
  ORG_ROOT ++ "." ++ toString t.year ++ toString t.month ++ toString t.day
    ++ toString t.minute ++ toString t.second ++ toString t.microsecond

/-- The successive return values of `UIDGenerator.generate` given the
successive clock samples `ts` and the generator's `current_uid` state
`cur`: each loop iteration samples the clock, formats it, and returns
the result unless it equals the previous return value, in which case it
polls again. -/
def genAll (cur : Option String) : List Timestamp → List String
  | [] => []
  | t :: ts =>
    if some (formatUid t) = cur then genAll cur ts
    else formatUid t :: genAll (some (formatUid t)) ts

/-- One row of `output_manifest` (`local_deid.py` lines 184–197),
restricted to the identification fields; paths are kept as segment
lists. -/
structure ManifestEntry where
  originalPath : List String
  deidPath : List String
  originalAccession : String
  deidAccession : String
  studyUid : String
  seriesUid : String
  sopInstanceUid : String
deriving DecidableEq, Repr

/-- A placeholder row used only to read concrete manifests by index. -/
def dummyEntry : ManifestEntry :=
  { originalPath := [], deidPath := [], originalAccession := "", deidAccession := ""
    studyUid := "", seriesUid := "", sopInstanceUid := "" }

/-- First-match association lookup, the model of Python dict access for
the insert-once dictionaries of the run. -/
def alookup {α : Type} (k : String) : List (String × α) → Option α
  | [] => none
  | (k2, v) :: rest => if k2 = k then some v else alookup k rest

/-- The mutable state shared across `process_file` calls in `main`:
`accession_uid_map`, `folder_uid_map`, the in-memory manifest, the set of
output paths actually persisted by `dcmwrite`, and the UID supply — the
stream of values the generator will return, indexed by call number. -/
structure RunState where
  accessionUidMap : List (String × String × String)
  folderUidMap : List (String × String)
  manifest : List ManifestEntry
  written : List (List String)
  supply : Nat → String
  pos : Nat

/-- One call to `uid_gen.generate()`. -/
def genUid (st : RunState) : String × RunState :=
  (st.supply st.pos, { st with pos := st.pos + 1 })

/-- `local_deid.py` lines 95–99: allocate and cache a study/series UID
pair for a pseudonym unless one is already cached. -/
def ensureUidPair (st : RunState) (deidAcc : String) : RunState :=
  match alookup deidAcc st.accessionUidMap with
  | some _ => st
  | none =>
    let g1 := genUid st
    let g2 := genUid g1.2
    { g2.2 with accessionUidMap := g2.2.accessionUidMap ++ [(deidAcc, (g1.1, g2.1))] }

/-- `local_deid.py` lines 107–110: map the remaining path segments to
cached opaque tokens, allocating a fresh token for each unseen segment. -/
def tokensFor (st : RunState) : List String → RunState × List String
  | [] => (st, [])
  | part :: rest =>
    match alookup part st.folderUidMap with
    | some t =>
      let r := tokensFor st rest
      (r.1, t :: r.2)
    | none =>
      let g := genUid st
      let st2 := { g.2 with folderUidMap := g.2.folderUidMap ++ [(part, g.1)] }
      let r := tokensFor st2 rest
      (r.1, g.1 :: r.2)

/-- Per-file inputs and environment outcomes for one `process_file`
call.  The boolean fields record whether each fallible external step
succeeds: `isDicomFile` (line 62), `readOk` (line 66), `decodeOk`
(lines 77–91, decompression plus pixel decode), `pixelAccessOk`
(`pixel_deid.py` lines 24–29, failure is caught and `redact` returns
without writing), `metaReadOk` (`pixel_deid.py` line 32, failure raises
out of `redact` into the caller), and `writeOk` (`pixel_deid.py`
lines 38–63, failure of the conversion or the write is caught inside
`redact`). -/
structure FileInput where
  isDicomFile : Bool
  readOk : Bool
  accession : String
  decodeOk : Bool
  relDirParts : List String
  fileName : String
  pixelAccessOk : Bool
  metaReadOk : Bool
  writeOk : Bool
deriving Repr

/-- The portion of `process_file` after validation, roster lookup and
decode succeed (`local_deid.py` lines 95–197): UID pair, folder tokens,
fresh instance UID, output path, redaction and persistence, then the
manifest append.  A raise escaping `redact` (bit-depth read failure)
aborts before the append; a swallowed redaction failure does not. -/
def processBody (st : RunState) (deidAcc : String) (f : FileInput) : RunState :=
  let st1 := ensureUidPair st deidAcc
  let p := tokensFor st1 f.relDirParts.tail
  let g := genUid p.1
  let sopUid := g.1
  let st3 := g.2
  let newFilename := deidAcc ++ "_" ++ sopUid ++ ".dcm"
  let outParts := deidAcc :: (p.2 ++ [newFilename])
  if f.pixelAccessOk && !f.metaReadOk then st3
  else
    let st4 := if f.pixelAccessOk && f.metaReadOk && f.writeOk then
        { st3 with written := st3.written ++ [outParts] }
      else st3
    let pr := (alookup deidAcc st4.accessionUidMap).getD ("", "")
    { st4 with manifest := st4.manifest ++ [{
        originalPath := f.relDirParts ++ [f.fileName]
        deidPath := outParts
        originalAccession := f.accession
        deidAccession := deidAcc
        studyUid := pr.1
        seriesUid := pr.2
        sopInstanceUid := sopUid }] }

/-- One `process_file` call (`local_deid.py` lines 55–197): skip quietly
unless the file is recognized, readable, rostered and decodable. -/
def processFile (accessionMap : List (String × String)) (st : RunState) (f : FileInput) :
    RunState :=
  if f.isDicomFile && f.readOk then
    match alookup f.accession accessionMap with
    | none => st
    | some deidAcc => if f.decodeOk then processBody st deidAcc f else st
  else st

/-- The traversal loop of `main` (`local_deid.py` lines 254–263). -/
def runFiles (accessionMap : List (String × String)) (st : RunState)
    (files : List FileInput) : RunState :=
  files.foldl (processFile accessionMap) st

/-- The fresh state built in `main` (lines 246–250), with a given UID
supply. -/
def initState (supply : Nat → String) : RunState :=
  { accessionUidMap := [], folderUidMap := [], manifest := [], written := []
    supply := supply, pos := 0 }

/-- A point of an OCR bounding box; the `int()` casts of the source are
absorbed by working over the integers. -/
structure Pt where
  x : Int
  y : Int
deriving DecidableEq, Repr

/-- One OCR detection: the four bounding-box corners in easyocr order
(top-left, top-right, bottom-right, bottom-left), the recognized text,
and the confidence, modelled as a rational. -/
structure Detection where
  tl : Pt
  tr : Pt
  br : Pt
  bl : Pt
  text : String
  prob : ℚ
deriving DecidableEq, Repr

/-- The confidence threshold `0.6` of `pixel_deid.py` line 82, written
with `mkRat` so that comparisons against it compute. -/
def confThreshold : ℚ := mkRat 6 10

/-- The keyword allowlist of `DicomPixelRedactor` (`pixel_deid.py`
lines 12–15). -/
def keywords : List String := [
  "right", "left", "rt", "lt", "rk", "lk", "kidney", "bladder",
  "sagittal", "sag", "transverse", "trans", "prone"]

/-- Python whitespace for `str.strip`. -/
def isPySpace (c : Char) : Bool :=
  c == ' ' || c == Char.ofNat 9 || c == Char.ofNat 10 || c == Char.ofNat 13 ||
  c == Char.ofNat 11 || c == Char.ofNat 12

/-- `str.strip`: drop leading and trailing whitespace. -/
def stripChars (cs : List Char) : List Char :=
  ((cs.dropWhile isPySpace).reverse.dropWhile isPySpace).reverse

/-- `text.strip().lower()` from `pixel_deid.py` line 83. -/
def cleanText (s : String) : String :=
  String.mk ((stripChars s.data).map Char.toLower)

/-- Whether `pat` occurs at the start of `s`. -/
def leadsWith : List Char → List Char → Bool
  | [], _ => true
  | _ :: _, [] => false
  | a :: as, b :: bs => a == b && leadsWith as bs

/-- Whether `pat` occurs contiguously anywhere in `s` (Python
`pat in s`). -/
def hasSub (pat : List Char) : List Char → Bool
  | [] => leadsWith pat []
  | c :: cs => leadsWith pat (c :: cs) || hasSub pat cs

/-- Python substring membership on strings. -/
def strContains (s pat : String) : Bool := hasSub pat.data s.data

/-- The two Selective-mode skip tests of `pixel_deid.py` lines 86–89 on
the cleaned text: it contains one of the keywords, or it is a single
alphabetic character. -/
def skipSelective (cleaned : String) : Bool :=
  keywords.any (fun k => strContains cleaned k) ||
  (cleaned.length = 1 && cleaned.data.all Char.isAlpha)

/-- An axis-aligned pixel rectangle given by two opposite corners. -/
structure Rect where
  x1 : Int
  y1 : Int
  x2 : Int
  y2 : Int
deriving DecidableEq, Repr

/-- Clamp one coordinate into `[0, hi]` (`max(0, min(v, hi))`). -/
def clampVal (v hi : Int) : Int := max 0 (min v hi)

/-- The rectangle the source paints for a detection (`pixel_deid.py`
lines 91–94): the top-left and bottom-right corners of the OCR box,
each clamped into the frame. -/
def rectOf (d : Detection) (rows cols : Nat) : Rect :=
  { x1 := clampVal d.tl.x ((cols : Int) - 1)
    y1 := clampVal d.tl.y ((rows : Int) - 1)
    x2 := clampVal d.br.x ((cols : Int) - 1)
    y2 := clampVal d.br.y ((rows : Int) - 1) }

/-- Membership in the filled rectangle drawn between two opposite
corners (corner order does not matter, both edges inclusive). -/
def inRect (r : Rect) (x y : Int) : Bool :=
  min r.x1 r.x2 ≤ x && x ≤ max r.x1 r.x2 && min r.y1 r.y2 ≤ y && y ≤ max r.y1 r.y2

/-- One iteration of the detection loop (`pixel_deid.py` lines 81–94)
acting on the current mask: below the confidence threshold, or skipped
in a non-Full mode, the mask is unchanged; otherwise the detection's
rectangle is painted to 0. -/
def maskStep (mode : String) (rows cols : Nat) (m : Int → Int → Nat) (d : Detection) :
    Int → Int → Nat :=
  if d.prob > confThreshold then
    if mode ≠ "Full" && keywords.any (fun k => strContains (cleanText d.text) k) then m
    else if mode ≠ "Full" &&
        ((cleanText d.text).length = 1 && (cleanText d.text).data.all Char.isAlpha) then m
    else fun x y => if inRect (rectOf d rows cols) x y then 0 else m x y
  else m

/-- The complete mask after the detection loop, starting from the
all-255 keep-everywhere mask of line 79. -/
def buildMask (mode : String) (rows cols : Nat) (dets : List Detection) :
    Int → Int → Nat :=
  dets.foldl (maskStep mode rows cols) (fun _ _ => 255)

/-- Mask application of `pixel_deid.py` lines 96–101: masked pixels
become 0, all other pixels come from the original frame. -/
def applyMask (mask : Int → Int → Nat) (img : Int → Int → Int) : Int → Int → Int :=
  fun x y => if mask x y = 0 then 0 else img x y

/-- `redact_frame` on one frame given its OCR detections: build the mask
from the above-threshold, non-skipped detections and apply it to the
original (non-normalized) frame. -/
def redact_frame (mode : String) (rows cols : Nat) (dets : List Detection)
    (img : Int → Int → Int) : Int → Int → Int :=
  applyMask (buildMask mode rows cols dets) img

/-- Multi-frame handling (`pixel_deid.py` lines 40–46): every frame is
redacted independently with its own detections and the results are
restacked in order. -/
def redactVolume (mode : String) (rows cols : Nat) (dets : Nat → List Detection)
    (frames : Nat → Int → Int → Int) : Nat → Int → Int → Int :=
  fun i => redact_frame mode rows cols (dets i) (frames i)

/-- Written from the specification words, for comparison with `rectOf`:
the axis-aligned bounding rectangle of the whole detection
quadrilateral, clamped to the frame. -/
def specAABB (d : Detection) (rows cols : Nat) : Rect :=
  { x1 := clampVal (min (min d.tl.x d.tr.x) (min d.br.x d.bl.x)) ((cols : Int) - 1)
    y1 := clampVal (min (min d.tl.y d.tr.y) (min d.br.y d.bl.y)) ((rows : Int) - 1)
    x2 := clampVal (max (max d.tl.x d.tr.x) (max d.br.x d.bl.x)) ((cols : Int) - 1)
    y2 := clampVal (max (max d.tl.y d.tr.y) (max d.br.y d.bl.y)) ((rows : Int) - 1) }

/-! ## Lemmas about the element pipeline -/

/-- An element whose name differs from the assigned keyword's
description survives a keyword assignment untouched. -/
theorem mem_setTag {ds : List Elem} {e : Elem} (nm : String) (v : DVal)
    (he : e ∈ ds) (hne : e.name ≠ nm) : e ∈ setTag ds nm v := by
  unfold setTag
  split
  · exact List.mem_map.mpr ⟨e, he, by simp [hne]⟩
  · exact List.mem_append_left _ he

/-- After a keyword assignment, some element carries the assigned name
and value. -/
theorem setTag_creates (ds : List Elem) (nm : String) (v : DVal) :
    ∃ e ∈ setTag ds nm v, e.name = nm ∧ e.value = v := by
  unfold setTag
  split
  · rename_i h
    obtain ⟨e0, he0, hname⟩ := List.any_eq_true.mp h
    refine ⟨{ e0 with value := v, nested := [] }, List.mem_map.mpr ⟨e0, he0, ?_⟩, ?_, rfl⟩
    · rw [if_pos (of_decide_eq_true hname)]
    · exact of_decide_eq_true hname
  · exact ⟨_, List.mem_append_right _ (List.mem_singleton_self _), rfl, rfl⟩

/-- The sweep leaves an element alone when its normalized name is in the
keep list. -/
theorem sweepElem_keep {e : Elem} (hk : normalizeTag e.name ∈ keepNormalized) :
    sweepElem e = some e := by
  unfold sweepElem
  rw [if_pos hk]

/-- Elements the sweep maps to themselves survive the sweep. -/
theorem mem_sweep {ds : List Elem} {e : Elem} (he : e ∈ ds)
    (hs : sweepElem e = some e) : e ∈ sweep ds :=
  List.mem_filterMap.mpr ⟨e, he, hs⟩

/-- An element named differently from all five fields the redactor
re-asserts survives the metadata re-assertion untouched. -/
theorem mem_redactMeta {ds : List Elem} {e : Elem} (pix : List Nat)
    (he : e ∈ ds)
    (h1 : e.name ≠ "Pixel Data") (h2 : e.name ≠ "Bits Allocated")
    (h3 : e.name ≠ "Bits Stored") (h4 : e.name ≠ "High Bit")
    (h5 : e.name ≠ "Pixel Representation") :
    e ∈ redactMeta ds pix := by
  unfold redactMeta
  split
  · exact mem_setTag _ _ (mem_setTag _ _ (mem_setTag _ _ (mem_setTag _ _
      (mem_setTag _ _ he h1) h2) h3) h4) h5
  · exact he

set_option maxHeartbeats 4000000 in
/-- None of the first seven identity keywords assigned by the
replacement step has a normalized description in the keep list. -/
theorem replacementNamesNotKept :
    normalizeTag "Accession Number" ∉ keepNormalized ∧
    normalizeTag "Patient ID" ∉ keepNormalized ∧
    normalizeTag patientsName ∉ keepNormalized ∧
    normalizeTag "Study ID" ∉ keepNormalized ∧
    normalizeTag "Patient Identity Removed" ∉ keepNormalized ∧
    normalizeTag "Study Instance UID" ∉ keepNormalized ∧
    normalizeTag "Series Instance UID" ∉ keepNormalized := by decide

/-- Normalized names of the keep-list entries that the pipeline
nonetheless rewrites: the instance UID overwritten by the identity
replacement step, and the pixel fields re-asserted by the redactor. -/
def keepRewrittenNormalized : List String :=
  ["sopinstanceuid", "pixeldata", "bitsallocated", "bitsstored", "highbit",
   "pixelrepresentation"]

/-! ## Claim theorems for the element pipeline -/

/-- The dataset used in the C2 counterexample: a single instance UID
element. -/
def dsC2 : List Elem :=
  [{ name := "SOP Instance UID", value := DVal.str "1.2.3", isPrivate := false,
     nested := [] }]

/-- A dataset with a 12-in-16-bit signed pixel layout, also refuting
C2. -/
def dsC2b : List Elem :=
  [⟨"Bits Allocated", DVal.nat 16, false, []⟩,
   ⟨"Bits Stored", DVal.nat 12, false, []⟩,
   ⟨"Pixel Representation", DVal.nat 1, false, []⟩]

/-- A kept-named element nested inside a non-kept top-level sequence,
also refuting C2: the sweep wipes the parent and destroys it. -/
def nC2 : NElem := ⟨"Code Meaning", DVal.str "Left Lateral", false⟩

def dsC2c : List Elem := [⟨"View Code Sequence", DVal.str "seq", false, [nC2]⟩]

set_option maxHeartbeats 8000000 in
/-- C2 counterexample: the element named `SOP Instance UID` has its
normalized name in the keep list, yet the pipeline persists it with the
freshly generated UID instead of its input value, because the identity
replacement step overwrites it before the sweep; the kept `Bits Stored`
and `Pixel Representation` elements are rewritten by the redactor's
metadata re-assertion before persistence; and a kept-named `Code
Meaning` element nested inside the non-kept top-level `View Code
Sequence` is destroyed when the sweep wipes its parent. -/
theorem c2_counterexample :
    normalizeTag "SOP Instance UID" ∈ keepNormalized ∧
    getTag dsC2 "SOP Instance UID" = some (DVal.str "1.2.3") ∧
    getTag (tagPipeline dsC2 "P001" "1.9.1" "1.9.2" "1.9.7" []).1 "SOP Instance UID" =
      some (DVal.str "1.9.7") ∧
    normalizeTag "Bits Stored" ∈ keepNormalized ∧
    normalizeTag "Pixel Representation" ∈ keepNormalized ∧
    getTag dsC2b "Bits Stored" = some (DVal.nat 12) ∧
    getTag (tagPipeline dsC2b "P001" "1.9.1" "1.9.2" "1.9.7" [0]).1 "Bits Stored" =
      some (DVal.nat 16) ∧
    getTag dsC2b "Pixel Representation" = some (DVal.nat 1) ∧
    getTag (tagPipeline dsC2b "P001" "1.9.1" "1.9.2" "1.9.7" [0]).1
      "Pixel Representation" = some (DVal.nat 0) ∧
    normalizeTag nC2.name ∈ keepNormalized ∧
    normalizeTag "View Code Sequence" ∉ keepNormalized ∧
    normalizeTag "View Code Sequence" ∉ replNormalized ∧
    (∃ p ∈ dsC2c, nC2 ∈ p.nested) ∧
    (∀ p ∈ (tagPipeline dsC2c "P001" "1.9.1" "1.9.2" "1.9.7" []).1,
      nC2 ∉ p.nested) := by decide

set_option maxHeartbeats 1000000 in
/-- C2 (amended): every top-level input element whose normalized name is
in the keep list and is not one of the rewritten keep-list names (the
instance UID overwritten by the identity replacement step and the pixel
metadata fields re-asserted by the redactor) reaches the persisted
output whole — its value and its entire nested content intact — through
the replacement step, the sweep, and the redactor's re-assertion; in
particular every element nested inside such a kept top-level element is
preserved exactly.  (A keep-listed element nested inside a top-level
element outside the keep list is destroyed with its wiped parent, as
the counterexample shows.) -/
theorem c2_keep_preserved_amended :
    (∀ (ds : List Elem) (e : Elem) (deidAcc studyUid seriesUid sopUid : String)
        (pix : List Nat),
        e ∈ ds → normalizeTag e.name ∈ keepNormalized →
        normalizeTag e.name ∉ keepRewrittenNormalized →
        e ∈ (tagPipeline ds deidAcc studyUid seriesUid sopUid pix).1) ∧
    (∀ (ds : List Elem) (p : Elem) (n : NElem)
        (deidAcc studyUid seriesUid sopUid : String) (pix : List Nat),
        p ∈ ds → n ∈ p.nested →
        normalizeTag p.name ∈ keepNormalized →
        normalizeTag p.name ∉ keepRewrittenNormalized →
        ∃ p2 ∈ (tagPipeline ds deidAcc studyUid seriesUid sopUid pix).1,
          p2.nested = p.nested ∧ n ∈ p2.nested) := by
  have main : ∀ (ds : List Elem) (e : Elem) (deidAcc studyUid seriesUid sopUid : String)
      (pix : List Nat),
      e ∈ ds → normalizeTag e.name ∈ keepNormalized →
      normalizeTag e.name ∉ keepRewrittenNormalized →
      e ∈ (tagPipeline ds deidAcc studyUid seriesUid sopUid pix).1 := by
    intro ds e deidAcc studyUid seriesUid sopUid pix he hk hx
    have hne : ∀ nm : String, normalizeTag nm ∉ keepNormalized → e.name ≠ nm := by
      intro nm hnm hEq
      exact hnm (hEq ▸ hk)
    have hnx : ∀ nm : String, normalizeTag nm ∈ keepRewrittenNormalized → e.name ≠ nm := by
      intro nm hnm hEq
      exact hx (hEq ▸ hnm)
    obtain ⟨k1, k2, k3, k4, k5, k6, k7⟩ := replacementNamesNotKept
    have h1 : e ∈ replacementStep ds deidAcc studyUid seriesUid sopUid := by
      unfold replacementStep
      exact mem_setTag _ _ (mem_setTag _ _ (mem_setTag _ _ (mem_setTag _ _ (mem_setTag _ _
        (mem_setTag _ _ (mem_setTag _ _ (mem_setTag _ _ he (hne _ k1)) (hne _ k2))
          (hne _ k3)) (hne _ k4)) (hne _ k5)) (hne _ k6)) (hne _ k7))
        (hnx _ (by decide))
    have h2 : e ∈ sweep (replacementStep ds deidAcc studyUid seriesUid sopUid) :=
      mem_sweep h1 (sweepElem_keep hk)
    unfold tagPipeline
    exact mem_redactMeta pix h2 (hnx _ (by decide)) (hnx _ (by decide)) (hnx _ (by decide))
      (hnx _ (by decide)) (hnx _ (by decide))
  refine ⟨main, ?_⟩
  intro ds p n deidAcc studyUid seriesUid sopUid pix hp hn hk hx
  exact ⟨p, main ds p deidAcc studyUid seriesUid sopUid pix hp hk hx, rfl, hn⟩

set_option maxHeartbeats 1000000 in
/-- C2 amended, instantiated: a kept acquisition element survives the
whole pipeline with its input value, and an element nested inside a
kept sequence survives exactly. -/
theorem c2_keep_preserved_amended_witness :
    (⟨"Modality", DVal.str "MR", false, []⟩ : Elem) ∈
      (tagPipeline [⟨"Modality", DVal.str "MR", false, []⟩]
        "P001" "1.9.1" "1.9.2" "1.9.7" []).1 ∧
    ∃ p2 ∈ (tagPipeline
        [(⟨"Acquisition Context Sequence", DVal.str "", false,
          [⟨"Code Meaning", DVal.str "Zone", false⟩]⟩ : Elem)]
        "P001" "1.9.1" "1.9.2" "1.9.7" []).1,
      p2.nested = [⟨"Code Meaning", DVal.str "Zone", false⟩] ∧
      (⟨"Code Meaning", DVal.str "Zone", false⟩ : NElem) ∈ p2.nested :=
  ⟨c2_keep_preserved_amended.1 _ _ _ _ _ _ _ (List.mem_singleton_self _) (by decide)
      (by decide),
   c2_keep_preserved_amended.2 _ _ _ _ _ _ _ _ (List.mem_singleton_self _)
      (List.mem_singleton_self _) (by decide) (by decide)⟩

/-- The nested element of the C6 counterexample. -/
def elemC6 : NElem := ⟨"Image Comments", DVal.str "secret", false⟩

/-- The dataset of the C6 counterexample: a kept sequence with an
element in neither list nested inside it. -/
def dsC6 : List Elem :=
  [⟨"Acquisition Context Sequence", DVal.str "", false, [elemC6]⟩]

set_option maxHeartbeats 4000000 in
/-- C6 counterexample: an element in neither list, nested inside a kept
sequence, survives the sweep with its original non-empty value — the
output neither omits it nor clears it. -/
theorem c6_counterexample :
    normalizeTag elemC6.name ∉ keepNormalized ∧
    normalizeTag elemC6.name ∉ replNormalized ∧
    sweep dsC6 = dsC6 ∧
    (∃ p ∈ sweep dsC6, elemC6 ∈ p.nested) ∧
    elemC6.value = DVal.str "secret" := by decide

/-- C6 (amended): a top-level element in neither the keep list nor the
replacement set is removed outright (private), or cleared in place —
its value emptied and its nested content destroyed, so the output omits
it or holds it empty and omits everything nested inside it; whereas a
top-level element whose normalized name is in the keep list or the
replacement set is retained whole, so an element in neither list that
is nested inside it — where both the in-place clear and the delete
raise — is retained unchanged. -/
theorem c6_sweep_disposition :
    (∀ e : Elem, normalizeTag e.name ∉ keepNormalized →
        normalizeTag e.name ∉ replNormalized →
        sweepElem e = none ∨
          sweepElem e = some { e with value := DVal.str "", nested := [] }) ∧
    (∀ e : Elem, (normalizeTag e.name ∈ keepNormalized ∨
        normalizeTag e.name ∈ replNormalized) →
        sweepElem e = some e) := by
  constructor
  · intro e h1 h2
    cases hp : e.isPrivate <;> simp [sweepElem, h1, h2, hp]
  · intro e h
    rcases h with hk | hr
    · simp [sweepElem, hk]
    · by_cases hk : normalizeTag e.name ∈ keepNormalized
      · simp [sweepElem, hk]
      · simp [sweepElem, hk, hr]

set_option maxHeartbeats 1000000 in
/-- C6 amended, instantiated: a private element in neither list is
removed outright, and a kept sequence is retained whole, preserving the
neither-list element nested inside it. -/
theorem c6_sweep_disposition_witness :
    (sweepElem ⟨"Vendor Secret", DVal.str "x", true, []⟩ = none ∨
      sweepElem ⟨"Vendor Secret", DVal.str "x", true, []⟩ =
        some ⟨"Vendor Secret", DVal.str "", true, []⟩) ∧
    sweepElem ⟨"Acquisition Context Sequence", DVal.str "", false, [elemC6]⟩ =
      some ⟨"Acquisition Context Sequence", DVal.str "", false, [elemC6]⟩ :=
  ⟨c6_sweep_disposition.1 _ (by decide) (by decide),
   c6_sweep_disposition.2 _ (Or.inl (by decide))⟩

set_option maxHeartbeats 4000000 in
/-- C10: the file meta is built with its media storage class UID equal
to the freshly generated instance UID (the very value carried by the
media storage instance UID and by the dataset's instance UID element),
while a dataset element named `SOP Class UID` passes through the whole
pipeline unaltered. -/
theorem c10_file_meta_class_uid (ds : List Elem) (e : Elem)
    (deidAcc studyUid seriesUid sopUid : String) (pix : List Nat)
    (he : e ∈ ds) (hn : e.name = "SOP Class UID") :
    (tagPipeline ds deidAcc studyUid seriesUid sopUid pix).2.mediaStorageSOPClassUID
        = sopUid ∧
    (tagPipeline ds deidAcc studyUid seriesUid sopUid pix).2.mediaStorageSOPInstanceUID
        = sopUid ∧
    (∃ e2 ∈ (tagPipeline ds deidAcc studyUid seriesUid sopUid pix).1,
        e2.name = "SOP Instance UID" ∧ e2.value = DVal.str sopUid) ∧
    e ∈ (tagPipeline ds deidAcc studyUid seriesUid sopUid pix).1 := by
  have hne : ∀ nm : String, "SOP Class UID" ≠ nm → e.name ≠ nm := by
    intro nm hnm hEq
    exact hnm (hn ▸ hEq)
  refine ⟨rfl, rfl, ?_, ?_⟩
  · obtain ⟨e2, he2, hname2, hval2⟩ :=
      setTag_creates (setTag (setTag (setTag (setTag (setTag (setTag (setTag ds
        "Accession Number" (.str deidAcc))
        "Patient ID" (.str deidAcc))
        patientsName (.str deidAcc))
        "Study ID" (.str deidAcc))
        "Patient Identity Removed" (.str "YES"))
        "Study Instance UID" (.str studyUid))
        "Series Instance UID" (.str seriesUid))
        "SOP Instance UID" (.str sopUid)
    have hkeep : normalizeTag e2.name ∈ keepNormalized := by
      rw [hname2]; decide
    refine ⟨e2, ?_, hname2, hval2⟩
    unfold tagPipeline
    refine mem_redactMeta pix (mem_sweep ?_ (sweepElem_keep hkeep)) ?_ ?_ ?_ ?_ ?_ <;>
      first
        | (exact he2)
        | (rw [hname2]; decide)
  · have h1 : e ∈ replacementStep ds deidAcc studyUid seriesUid sopUid := by
      unfold replacementStep
      exact mem_setTag _ _ (mem_setTag _ _ (mem_setTag _ _ (mem_setTag _ _ (mem_setTag _ _
        (mem_setTag _ _ (mem_setTag _ _ (mem_setTag _ _ he (hne _ (by decide)))
          (hne _ (by decide))) (hne _ (by decide))) (hne _ (by decide)))
          (hne _ (by decide))) (hne _ (by decide))) (hne _ (by decide)))
        (hne _ (by decide))
    have hkeep : normalizeTag e.name ∈ keepNormalized := by
      rw [hn]; decide
    unfold tagPipeline
    exact mem_redactMeta pix (mem_sweep h1 (sweepElem_keep hkeep)) (hne _ (by decide))
      (hne _ (by decide)) (hne _ (by decide)) (hne _ (by decide)) (hne _ (by decide))

set_option maxHeartbeats 1000000 in
/-- C10, instantiated on a one-element dataset. -/
theorem c10_file_meta_class_uid_witness :
    (tagPipeline [⟨"SOP Class UID", DVal.str "1.2.840.10008.5.1.4.1.1.6.1", false, []⟩]
        "P001" "1.9.1" "1.9.2" "1.9.7" []).2.mediaStorageSOPClassUID = "1.9.7" ∧
    (tagPipeline [⟨"SOP Class UID", DVal.str "1.2.840.10008.5.1.4.1.1.6.1", false, []⟩]
        "P001" "1.9.1" "1.9.2" "1.9.7" []).2.mediaStorageSOPInstanceUID = "1.9.7" ∧
    (∃ e2 ∈ (tagPipeline [⟨"SOP Class UID", DVal.str "1.2.840.10008.5.1.4.1.1.6.1",
        false, []⟩] "P001" "1.9.1" "1.9.2" "1.9.7" []).1,
        e2.name = "SOP Instance UID" ∧ e2.value = DVal.str "1.9.7") ∧
    (⟨"SOP Class UID", DVal.str "1.2.840.10008.5.1.4.1.1.6.1", false, []⟩ : Elem) ∈
      (tagPipeline [⟨"SOP Class UID", DVal.str "1.2.840.10008.5.1.4.1.1.6.1", false, []⟩]
        "P001" "1.9.1" "1.9.2" "1.9.7" []).1 :=
  c10_file_meta_class_uid _ _ _ _ _ _ _ (List.mem_singleton_self _) rfl

/-! ## Lemmas about the run state -/

/-- A successful first-match lookup is unaffected by appending entries. -/
theorem alookup_append_of_some {α : Type} {k : String} {m : List (String × α)} {v : α}
    (l : List (String × α)) (h : alookup k m = some v) : alookup k (m ++ l) = some v := by
  induction m with
  | nil => simp [alookup] at h
  | cons p rest ih =>
    rcases p with ⟨k2, v2⟩
    rw [List.cons_append]
    by_cases hk : k2 = k
    · simpa [alookup, hk] using h
    · simp only [alookup, if_neg hk] at h ⊢
      exact ih h

/-- Appending a binding for an absent key makes it the lookup result. -/
theorem alookup_append_self {α : Type} {k : String} {m : List (String × α)}
    (v : α) (h : alookup k m = none) : alookup k (m ++ [(k, v)]) = some v := by
  induction m with
  | nil => simp [alookup]
  | cons p rest ih =>
    rcases p with ⟨k2, v2⟩
    rw [List.cons_append]
    by_cases hk : k2 = k
    · simp [alookup, hk] at h
    · simp only [alookup, if_neg hk] at h ⊢
      exact ih h

theorem genUid_fst (st : RunState) : (genUid st).1 = st.supply st.pos := rfl

theorem genUid_accMap (st : RunState) : (genUid st).2.accessionUidMap = st.accessionUidMap := rfl

theorem genUid_folder (st : RunState) : (genUid st).2.folderUidMap = st.folderUidMap := rfl

theorem genUid_manifest (st : RunState) : (genUid st).2.manifest = st.manifest := rfl

theorem genUid_written (st : RunState) : (genUid st).2.written = st.written := rfl

theorem genUid_supply (st : RunState) : (genUid st).2.supply = st.supply := rfl

theorem genUid_pos (st : RunState) : (genUid st).2.pos = st.pos + 1 := rfl

theorem ensureUidPair_folder (st : RunState) (a : String) :
    (ensureUidPair st a).folderUidMap = st.folderUidMap := by
  unfold ensureUidPair
  split <;> rfl

theorem ensureUidPair_manifest (st : RunState) (a : String) :
    (ensureUidPair st a).manifest = st.manifest := by
  unfold ensureUidPair
  split <;> rfl

theorem ensureUidPair_written (st : RunState) (a : String) :
    (ensureUidPair st a).written = st.written := by
  unfold ensureUidPair
  split <;> rfl

theorem ensureUidPair_supply (st : RunState) (a : String) :
    (ensureUidPair st a).supply = st.supply := by
  unfold ensureUidPair
  split <;> rfl

theorem ensureUidPair_pos_le (st : RunState) (a : String) :
    st.pos ≤ (ensureUidPair st a).pos := by
  unfold ensureUidPair
  split
  · exact Nat.le_refl _
  · simp [genUid]
    omega

/-- The cached pair of a pseudonym survives `ensureUidPair`. -/
theorem ensureUidPair_lookup_stable {st : RunState} {k : String} {v : String × String}
    (a : String) (h : alookup k st.accessionUidMap = some v) :
    alookup k (ensureUidPair st a).accessionUidMap = some v := by
  unfold ensureUidPair
  split
  · exact h
  · exact alookup_append_of_some _ h

/-- After `ensureUidPair` the pseudonym has a cached pair. -/
theorem ensureUidPair_mem (st : RunState) (a : String) :
    ∃ p, alookup a (ensureUidPair st a).accessionUidMap = some p := by
  unfold ensureUidPair
  split
  · next p h => exact ⟨p, h⟩
  · next h => exact ⟨_, alookup_append_self _ h⟩

theorem tokensFor_accMap (parts : List String) : ∀ st : RunState,
    (tokensFor st parts).1.accessionUidMap = st.accessionUidMap := by
  induction parts with
  | nil => intro st; rfl
  | cons part rest ih =>
    intro st
    unfold tokensFor
    split
    · exact ih st
    · exact ih _

theorem tokensFor_manifest (parts : List String) : ∀ st : RunState,
    (tokensFor st parts).1.manifest = st.manifest := by
  induction parts with
  | nil => intro st; rfl
  | cons part rest ih =>
    intro st
    unfold tokensFor
    split
    · exact ih st
    · exact ih _

theorem tokensFor_written (parts : List String) : ∀ st : RunState,
    (tokensFor st parts).1.written = st.written := by
  induction parts with
  | nil => intro st; rfl
  | cons part rest ih =>
    intro st
    unfold tokensFor
    split
    · exact ih st
    · exact ih _

theorem tokensFor_supply (parts : List String) : ∀ st : RunState,
    (tokensFor st parts).1.supply = st.supply := by
  induction parts with
  | nil => intro st; rfl
  | cons part rest ih =>
    intro st
    unfold tokensFor
    split
    · exact ih st
    · exact ih _

theorem tokensFor_pos_le (parts : List String) : ∀ st : RunState,
    st.pos ≤ (tokensFor st parts).1.pos := by
  induction parts with
  | nil => intro st; exact Nat.le_refl _
  | cons part rest ih =>
    intro st
    unfold tokensFor
    split
    · exact ih st
    · dsimp only
      refine Nat.le_trans ?_ (ih _)
      exact Nat.le_succ st.pos

/-- A cached folder token survives any further `tokensFor` calls. -/
theorem tokensFor_folder_stable (parts : List String) : ∀ (st : RunState) (k : String)
    (v : String), alookup k st.folderUidMap = some v →
    alookup k (tokensFor st parts).1.folderUidMap = some v := by
  induction parts with
  | nil => intro st k v h; exact h
  | cons part rest ih =>
    intro st k v h
    unfold tokensFor
    split
    · exact ih st k v h
    · exact ih _ k v (alookup_append_of_some _ h)

/-- Every returned token is the cached binding of its segment in the
post-state folder map. -/
theorem tokensFor_spec (parts : List String) : ∀ st : RunState,
    List.Forall₂ (fun seg tok => alookup seg (tokensFor st parts).1.folderUidMap = some tok)
      parts (tokensFor st parts).2 := by
  induction parts with
  | nil => intro st; exact List.Forall₂.nil
  | cons part rest ih =>
    intro st
    unfold tokensFor
    split
    · next t heq =>
      refine List.Forall₂.cons (tokensFor_folder_stable rest st part t heq) ?_
      exact ih st
    · next heq =>
      refine List.Forall₂.cons (tokensFor_folder_stable rest _ part _ ?_) ?_
      · exact alookup_append_self _ (by simpa [genUid] using heq)
      · exact ih _

/-- Behaviour of `processBody` common to every outcome of the redaction
stage: the pseudonym cache is exactly the one produced by
`ensureUidPair`, the folder cache the one produced by `tokensFor`, the
UID supply is untouched, exactly one more UID is consumed after the
folder tokens, and when a manifest row is appended it carries the
roster accession, the cached pair, and the freshly drawn instance UID. -/
theorem processBody_spec (st : RunState) (a : String) (f : FileInput) :
    (processBody st a f).accessionUidMap = (ensureUidPair st a).accessionUidMap ∧
    (processBody st a f).folderUidMap =
      (tokensFor (ensureUidPair st a) f.relDirParts.tail).1.folderUidMap ∧
    (processBody st a f).supply = st.supply ∧
    (processBody st a f).pos =
      (tokensFor (ensureUidPair st a) f.relDirParts.tail).1.pos + 1 ∧
    ((processBody st a f).manifest = st.manifest ∨
      ∃ e : ManifestEntry, (processBody st a f).manifest = st.manifest ++ [e] ∧
        e.originalAccession = f.accession ∧ e.deidAccession = a ∧
        alookup a (ensureUidPair st a).accessionUidMap = some (e.studyUid, e.seriesUid) ∧
        e.sopInstanceUid =
          st.supply (tokensFor (ensureUidPair st a) f.relDirParts.tail).1.pos) := by
  obtain ⟨q, hq⟩ := ensureUidPair_mem st a
  have hman : (genUid (tokensFor (ensureUidPair st a) f.relDirParts.tail).1).2.manifest
      = st.manifest := by
    rw [genUid_manifest, tokensFor_manifest, ensureUidPair_manifest]
  have haccm : (genUid (tokensFor (ensureUidPair st a) f.relDirParts.tail).1).2.accessionUidMap
      = (ensureUidPair st a).accessionUidMap := by
    rw [genUid_accMap, tokensFor_accMap]
  have hsupp : (genUid (tokensFor (ensureUidPair st a) f.relDirParts.tail).1).2.supply
      = st.supply := by
    rw [genUid_supply, tokensFor_supply, ensureUidPair_supply]
  have hfst : (genUid (tokensFor (ensureUidPair st a) f.relDirParts.tail).1).1
      = st.supply (tokensFor (ensureUidPair st a) f.relDirParts.tail).1.pos := by
    rw [genUid_fst, tokensFor_supply, ensureUidPair_supply]
  unfold processBody
  dsimp only
  split
  · exact ⟨haccm, genUid_folder _, hsupp, genUid_pos _, Or.inl hman⟩
  · split
    · dsimp only
      rw [hman, haccm, hq, hsupp, hfst]
      exact ⟨rfl, rfl, rfl, rfl, Or.inr ⟨_, rfl, rfl, rfl, rfl, rfl⟩⟩
    · dsimp only
      rw [hman, haccm, hq, hsupp, hfst]
      exact ⟨rfl, rfl, rfl, rfl, Or.inr ⟨_, rfl, rfl, rfl, rfl, rfl⟩⟩

/-- When the redaction stage does not raise (it is not the case that the
pixel access succeeds and the bit-depth read fails), `processBody`
appends exactly one manifest row whose output path is the pseudonym,
then the folder tokens, then the `pseudonym_instanceUid.dcm` filename,
each token being the folder cache's binding for its segment. -/
theorem processBody_path_spec (st : RunState) (a : String) (f : FileInput)
    (hnoraise : ¬(f.pixelAccessOk = true ∧ f.metaReadOk = false)) :
    ∃ e toks, (processBody st a f).manifest = st.manifest ++ [e] ∧
      e.deidAccession = a ∧
      e.deidPath = a :: (toks ++ [a ++ "_" ++ e.sopInstanceUid ++ ".dcm"]) ∧
      List.Forall₂ (fun seg tok =>
          alookup seg (processBody st a f).folderUidMap = some tok)
        f.relDirParts.tail toks := by
  have hcond : (f.pixelAccessOk && !f.metaReadOk) = false := by
    cases hp : f.pixelAccessOk <;> cases hm : f.metaReadOk <;> simp_all
  have hfold : (processBody st a f).folderUidMap =
      (tokensFor (ensureUidPair st a) f.relDirParts.tail).1.folderUidMap :=
    (processBody_spec st a f).2.1
  have hfa := tokensFor_spec f.relDirParts.tail (ensureUidPair st a)
  have hman : (genUid (tokensFor (ensureUidPair st a) f.relDirParts.tail).1).2.manifest
      = st.manifest := by
    rw [genUid_manifest, tokensFor_manifest, ensureUidPair_manifest]
  simp only [hfold]
  unfold processBody
  dsimp only
  rw [if_neg (fun h => Bool.false_ne_true (hcond ▸ h))]
  split <;>
    (dsimp only
     rw [hman]
     exact ⟨_, _, rfl, rfl, rfl, hfa⟩)

/-- The per-row consistency invariant of a run state: every manifest row
carries its accession's roster pseudonym and the pair currently cached
for that pseudonym. -/
def manifestConsistent (accessionMap : List (String × String)) (st : RunState) : Prop :=
  ∀ e ∈ st.manifest,
    alookup e.originalAccession accessionMap = some e.deidAccession ∧
    alookup e.deidAccession st.accessionUidMap = some (e.studyUid, e.seriesUid)

/-- One `process_file` call preserves the manifest consistency
invariant. -/
theorem processFile_manifestConsistent (am : List (String × String)) (st : RunState)
    (f : FileInput) (h : manifestConsistent am st) :
    manifestConsistent am (processFile am st f) := by
  unfold manifestConsistent at h ⊢
  unfold processFile
  split
  · split
    · exact h
    · next deidAcc heq =>
      split
      · obtain ⟨haccm, -, -, -, hman⟩ := processBody_spec st deidAcc f
        intro e he
        cases hman with
        | inl hsame =>
          rw [hsame] at he
          obtain ⟨hA, hB⟩ := h e he
          exact ⟨hA, by rw [haccm]; exact ensureUidPair_lookup_stable deidAcc hB⟩
        | inr hex =>
          obtain ⟨e2, hm2, ho2, hd2, hl2, -⟩ := hex
          rw [hm2] at he
          rcases List.mem_append.mp he with hin | hin
          · obtain ⟨hA, hB⟩ := h e hin
            exact ⟨hA, by rw [haccm]; exact ensureUidPair_lookup_stable deidAcc hB⟩
          · rw [List.mem_singleton.mp hin]
            refine ⟨by rw [ho2, hd2]; exact heq, ?_⟩
            rw [haccm, hd2]
            exact hl2
      · exact h
  · exact h

/-- The invariant holds at the end of any run started from a consistent
state. -/
theorem runFiles_manifestConsistent (am : List (String × String)) (files : List FileInput) :
    ∀ st : RunState, manifestConsistent am st →
      manifestConsistent am (runFiles am st files) := by
  induction files with
  | nil => exact fun st h => h
  | cons f rest ih =>
    intro st h
    exact ih (processFile am st f) (processFile_manifestConsistent am st f h)

/-- C5: the study/series pair of a pseudonym is allocated at most once —
`ensureUidPair` on a pseudonym that already has a cached pair is the
identity on the run state — and any two manifest rows of one run that
share their original accession carry the identical pseudonym, the
identical study UID and the identical series UID. -/
theorem c5_uid_pair_consistency :
    (∀ (st : RunState) (a : String) (p : String × String),
        alookup a st.accessionUidMap = some p → ensureUidPair st a = st) ∧
    (∀ (accessionMap : List (String × String)) (files : List FileInput)
        (supply : Nat → String) (e1 e2 : ManifestEntry),
        e1 ∈ (runFiles accessionMap (initState supply) files).manifest →
        e2 ∈ (runFiles accessionMap (initState supply) files).manifest →
        e1.originalAccession = e2.originalAccession →
        e1.deidAccession = e2.deidAccession ∧ e1.studyUid = e2.studyUid ∧
          e1.seriesUid = e2.seriesUid) := by
  constructor
  · intro st a p hp
    unfold ensureUidPair
    rw [hp]
  · intro am files supply e1 e2 h1 h2 hacc
    have hbase : manifestConsistent am (initState supply) := by
      intro e he
      exact absurd he (List.not_mem_nil e)
    have hc := runFiles_manifestConsistent am files (initState supply) hbase
    obtain ⟨ha1, hb1⟩ := hc e1 h1
    obtain ⟨ha2, hb2⟩ := hc e2 h2
    rw [← hacc] at ha2
    have hd : e1.deidAccession = e2.deidAccession := Option.some.inj (ha1.symm.trans ha2)
    rw [← hd] at hb2
    have hpair := Option.some.inj (hb1.symm.trans hb2)
    exact ⟨hd, congrArg Prod.fst hpair, congrArg Prod.snd hpair⟩

/-- The UID supply used by the concrete runs below. -/
def wSupply : Nat → String := fun n => String.mk (List.replicate (n + 1) 'u')

/-- A one-row roster mapping one accession to one pseudonym. -/
def wAccMap : List (String × String) := [("A123", "P001")]

/-- Two fully succeeding files sharing the accession. -/
def wFile1 : FileInput := ⟨true, true, "A123", true, ["d1"], "a.dcm", true, true, true⟩

def wFile2 : FileInput := ⟨true, true, "A123", true, ["d2"], "b.dcm", true, true, true⟩

/-- The run state after processing the two files. -/
def wRun : RunState := runFiles wAccMap (initState wSupply) [wFile1, wFile2]

/-- C5 instantiated on a concrete two-file run sharing one accession. -/
theorem c5_uid_pair_consistency_witness :
    ensureUidPair wRun "P001" = wRun ∧
    ((wRun.manifest.getD 0 dummyEntry).deidAccession =
        (wRun.manifest.getD 1 dummyEntry).deidAccession ∧
      (wRun.manifest.getD 0 dummyEntry).studyUid =
        (wRun.manifest.getD 1 dummyEntry).studyUid ∧
      (wRun.manifest.getD 0 dummyEntry).seriesUid =
        (wRun.manifest.getD 1 dummyEntry).seriesUid) :=
  ⟨c5_uid_pair_consistency.1 wRun "P001" ("u", "uu") (by decide),
   c5_uid_pair_consistency.2 wAccMap [wFile1, wFile2] wSupply _ _ (by decide) (by decide)
     (by decide)⟩

/-- The C1 failing input: a valid, rostered, decodable file whose output
write fails inside the redactor (`dcmwrite` raises, the exception is
caught at `pixel_deid.py` line 62). -/
def fC1 : FileInput := ⟨true, true, "A123", true, ["sub"], "img1.dcm", true, true, false⟩

/-- C1: evaluating `process_file` at the failing input shows the code
appends a full manifest row even though no output file was persisted —
the claimed equivalence between a manifest row and a completed write
fails in the code. -/
theorem c1_manifest_despite_failed_write :
    (processFile wAccMap (initState wSupply) fC1).manifest.length = 1 ∧
    (processFile wAccMap (initState wSupply) fC1).written = [] := by decide

/-- C9: (1) folder tokens are per-run stable — a segment's cached token
survives every later `process_file` call, so every recurrence of the
same segment string maps to the identical token; (2) every processed
file appends a manifest row whose output path is the pseudonym in place
of the first segment, the cached per-segment token for every subsequent
directory segment, and the `{pseudonym}_{instanceUid}.dcm` filename with
the fixed extension. -/
theorem c9_output_path :
    (∀ (am : List (String × String)) (st : RunState) (f : FileInput) (seg tok : String),
        alookup seg st.folderUidMap = some tok →
        alookup seg (processFile am st f).folderUidMap = some tok) ∧
    (∀ (am : List (String × String)) (st : RunState) (f : FileInput) (deidAcc : String),
        f.isDicomFile = true → f.readOk = true →
        alookup f.accession am = some deidAcc → f.decodeOk = true →
        ¬(f.pixelAccessOk = true ∧ f.metaReadOk = false) →
        ∃ e toks, (processFile am st f).manifest = st.manifest ++ [e] ∧
          e.deidAccession = deidAcc ∧
          e.deidPath = deidAcc :: (toks ++ [deidAcc ++ "_" ++ e.sopInstanceUid ++ ".dcm"]) ∧
          List.Forall₂ (fun seg tok =>
              alookup seg (processFile am st f).folderUidMap = some tok)
            f.relDirParts.tail toks) := by
  constructor
  · intro am st f seg tok h
    unfold processFile
    split
    · split
      · exact h
      · next deidAcc heq =>
        split
        · rw [(processBody_spec st deidAcc f).2.1]
          exact tokensFor_folder_stable _ _ _ _ (by rw [ensureUidPair_folder]; exact h)
        · exact h
    · exact h
  · intro am st f deidAcc h1 h2 hacc h4 hnr
    have hpf : processFile am st f = processBody st deidAcc f := by
      unfold processFile
      simp [h1, h2, hacc, h4]
    rw [hpf]
    exact processBody_path_spec st deidAcc f hnr

/-- A file with two directory levels used to instantiate C9. -/
def wFile9 : FileInput := ⟨true, true, "A123", true, ["r", "s1"], "c.dcm", true, true, true⟩

/-- C9 instantiated on a concrete file below two directory levels. -/
theorem c9_output_path_witness :
    ∃ e toks,
      (processFile wAccMap (initState wSupply) wFile9).manifest =
        (initState wSupply).manifest ++ [e] ∧
      e.deidAccession = "P001" ∧
      e.deidPath = "P001" :: (toks ++ ["P001" ++ "_" ++ e.sopInstanceUid ++ ".dcm"]) ∧
      List.Forall₂ (fun seg tok =>
          alookup seg (processFile wAccMap (initState wSupply) wFile9).folderUidMap =
            some tok)
        wFile9.relDirParts.tail toks :=
  c9_output_path.2 wAccMap (initState wSupply) wFile9 "P001" rfl rfl (by decide) rfl
    (by decide)

/-- Freshness invariant for instance UIDs: the supply is unchanged,
manifest rows carry pairwise distinct instance UIDs, and every recorded
instance UID was drawn from the supply below the current position. -/
def sopsFresh (supply : Nat → String) (st : RunState) : Prop :=
  st.supply = supply ∧
  st.manifest.Pairwise (fun a b => a.sopInstanceUid ≠ b.sopInstanceUid) ∧
  ∀ e ∈ st.manifest, ∃ i, i < st.pos ∧ e.sopInstanceUid = supply i

/-- One `process_file` call preserves instance-UID freshness when the
supply never repeats a value. -/
theorem processFile_sopsFresh (supply : Nat → String)
    (hinj : Function.Injective supply) (am : List (String × String)) (st : RunState)
    (f : FileInput) (h : sopsFresh supply st) : sopsFresh supply (processFile am st f) := by
  obtain ⟨hsup, hpw, hbound⟩ := h
  unfold processFile
  split
  · split
    · exact ⟨hsup, hpw, hbound⟩
    · next deidAcc heq =>
      split
      · obtain ⟨-, -, hsupply, hpos, hman⟩ := processBody_spec st deidAcc f
        have hple : st.pos ≤ (tokensFor (ensureUidPair st deidAcc) f.relDirParts.tail).1.pos :=
          Nat.le_trans (ensureUidPair_pos_le st deidAcc) (tokensFor_pos_le _ _)
        refine ⟨by rw [hsupply, hsup], ?_, ?_⟩
        · cases hman with
          | inl hsame => rw [hsame]; exact hpw
          | inr hex =>
            obtain ⟨e2, hm2, -, -, -, hs2⟩ := hex
            rw [hm2]
            rw [List.pairwise_append]
            refine ⟨hpw, List.pairwise_singleton _ _, ?_⟩
            intro a ha b hb
            rw [List.mem_singleton.mp hb]
            obtain ⟨i, hi, hie⟩ := hbound a ha
            rw [hie, hs2, hsup]
            intro hEq
            have := hinj hEq
            omega
        · cases hman with
          | inl hsame =>
            rw [hsame, hpos]
            intro e he
            obtain ⟨i, hi, hie⟩ := hbound e he
            exact ⟨i, by omega, hie⟩
          | inr hex =>
            obtain ⟨e2, hm2, -, -, -, hs2⟩ := hex
            rw [hm2, hpos]
            intro e he
            rcases List.mem_append.mp he with hin | hin
            · obtain ⟨i, hi, hie⟩ := hbound e hin
              exact ⟨i, by omega, hie⟩
            · rw [List.mem_singleton.mp hin]
              exact ⟨(tokensFor (ensureUidPair st deidAcc) f.relDirParts.tail).1.pos,
                by omega, by rw [hs2, hsup]⟩
      · exact ⟨hsup, hpw, hbound⟩
  · exact ⟨hsup, hpw, hbound⟩

/-- Instance-UID freshness holds after any run from a fresh state. -/
theorem runFiles_sopsFresh (supply : Nat → String) (hinj : Function.Injective supply)
    (am : List (String × String)) (files : List FileInput) :
    ∀ st : RunState, sopsFresh supply st → sopsFresh supply (runFiles am st files) := by
  induction files with
  | nil => exact fun st h => h
  | cons f rest ih =>
    intro st h
    exact ih (processFile am st f) (processFile_sopsFresh supply hinj am st f h)

/-- C3 (amended): if the UID supply of the run never repeats a value,
then the instance UIDs recorded in the manifest are pairwise distinct;
the timestamp generator itself guarantees only that consecutive values
differ, so this hypothesis is not discharged by the code. -/
theorem c3_sop_unique_of_injective_supply (accessionMap : List (String × String))
    (files : List FileInput) (supply : Nat → String)
    (hinj : Function.Injective supply) :
    ((runFiles accessionMap (initState supply) files).manifest).Pairwise
      (fun a b => a.sopInstanceUid ≠ b.sopInstanceUid) := by
  have hbase : sopsFresh supply (initState supply) :=
    ⟨rfl, List.Pairwise.nil, fun e he => absurd he (List.not_mem_nil e)⟩
  exact (runFiles_sopsFresh supply hinj accessionMap files (initState supply) hbase).2.1

/-- C3 amended, instantiated on the two-file run with an injective
supply. -/
theorem c3_sop_unique_witness :
    ((runFiles wAccMap (initState wSupply) [wFile1, wFile2]).manifest).Pairwise
      (fun a b => a.sopInstanceUid ≠ b.sopInstanceUid) :=
  c3_sop_unique_of_injective_supply wAccMap [wFile1, wFile2] wSupply (by
    intro m n h
    have h2 := congrArg (fun s => s.data.length) h
    simpa [wSupply] using h2)

/-- A total order key for timestamps: the wall-clock instant in
microseconds (months and days padded upward), used only to state that
the counterexample clock runs forward. -/
def tsInstant (t : Timestamp) : Nat :=
  ((((((t.year * 12 + t.month) * 31 + t.day) * 24 + t.hour) * 60 + t.minute) * 60 +
    t.second) * 1000000 + t.microsecond)

/-- Computable check that a clock sample list is strictly increasing in
real time. -/
def clockForward : List Timestamp → Bool
  | a :: b :: rest => decide (tsInstant a < tsInstant b) && clockForward (b :: rest)
  | _ => true

/-- The clock samples of the C3 counterexample: strictly increasing in
real time; the third and the sixth differ only in the hour, which the
UID format omits. -/
def clockC3 : List Timestamp := [
  ⟨2025, 3, 1, 9, 1, 2, 3⟩, ⟨2025, 3, 1, 9, 1, 2, 4⟩, ⟨2025, 3, 1, 9, 5, 6, 7⟩,
  ⟨2025, 3, 1, 9, 5, 6, 8⟩, ⟨2025, 3, 1, 9, 5, 6, 9⟩, ⟨2025, 3, 1, 10, 5, 6, 7⟩]

/-- The roster of the C3 counterexample run: two distinct accessions. -/
def accMapC3 : List (String × String) := [("A1", "PA"), ("A2", "PB")]

def fileA : FileInput := ⟨true, true, "A1", true, ["da"], "a.dcm", true, true, true⟩

def fileB : FileInput := ⟨true, true, "A2", true, ["db"], "b.dcm", true, true, true⟩

/-- The UID supply actually produced by the timestamp generator on the
counterexample clock. -/
def supplyC3 : Nat → String := fun n => (genAll none clockC3).getD n ""

def runC3 : RunState := runFiles accMapC3 (initState supplyC3) [fileA, fileB]

/-- C3 counterexample: with a forward-running clock, a run of two files
records the identical SOP instance UID in two distinct manifest rows,
because the generator's format omits the hour and only immediate
repetitions are re-polled. -/
theorem c3_counterexample :
    clockForward clockC3 = true ∧
    (genAll none clockC3).length = 6 ∧
    runC3.manifest.length = 2 ∧
    (runC3.manifest.getD 0 dummyEntry).sopInstanceUid =
      (runC3.manifest.getD 1 dummyEntry).sopInstanceUid ∧
    (runC3.manifest.getD 0 dummyEntry).originalAccession ≠
      (runC3.manifest.getD 1 dummyEntry).originalAccession := by decide

/-- The first value the generator returns is never the incoming
`current_uid`. -/
theorem genAll_head_ne (ts : List Timestamp) : ∀ (cur : Option String) (u : String),
    (genAll cur ts).head? = some u → some u ≠ cur := by
  induction ts with
  | nil =>
    intro cur u h
    simp [genAll] at h
  | cons t ts ih =>
    intro cur u h
    simp only [genAll] at h
    by_cases hc : some (formatUid t) = cur
    · rw [if_pos hc] at h
      exact ih cur u h
    · rw [if_neg hc] at h
      simp only [List.head?_cons, Option.some.injEq] at h
      rw [← h]
      exact hc

/-- C4: two consecutive calls to the UID generator within one process
return distinct identifiers — along any clock sample sequence, adjacent
values of the generated stream differ. -/
theorem c4_consecutive_uids_distinct (cur : Option String) (ts : List Timestamp) :
    List.Chain' (fun a b => a ≠ b) (genAll cur ts) := by
  induction ts generalizing cur with
  | nil => simp [genAll]
  | cons t ts ih =>
    simp only [genAll]
    split
    · exact ih cur
    · rw [List.chain'_cons']
      refine ⟨?_, ih (some (formatUid t))⟩
      intro b hb
      have hne := genAll_head_ne ts (some (formatUid t)) b hb
      intro hEq
      exact hne (by rw [hEq])

/-! ## Lemmas about the pixel mask -/

/-- Effect of one detection-loop iteration on one pixel of the mask. -/
theorem maskStep_zero (mode : String) (rows cols : Nat) (m : Int → Int → Nat)
    (d : Detection) (x y : Int) :
    maskStep mode rows cols m d x y = 0 ↔
      m x y = 0 ∨ (d.prob > confThreshold ∧
        (mode = "Full" ∨ skipSelective (cleanText d.text) = false) ∧
        inRect (rectOf d rows cols) x y = true) := by
  unfold maskStep skipSelective
  by_cases hp : d.prob > confThreshold
  · by_cases hfull : mode = "Full"
    · by_cases hr : inRect (rectOf d rows cols) x y
      <;> simp [hp, hfull, hr]
    · by_cases hkw : keywords.any (fun k => strContains (cleanText d.text) k)
      · simp [hp, hfull, hkw]
      · by_cases hsingle :
            ((cleanText d.text).length = 1 && (cleanText d.text).data.all Char.isAlpha)
        · simp [hp, hfull, hkw, hsingle]
        · by_cases hr : inRect (rectOf d rows cols) x y
          <;> simp [hp, hfull, hkw, hsingle, hr]
  · simp [hp]

/-- A pixel of the final mask reads zero exactly when some detection
above the threshold, not skipped by the Selective-mode text tests,
covers it with its painted rectangle. -/
theorem buildMask_eq_zero_iff (mode : String) (rows cols : Nat) (dets : List Detection)
    (x y : Int) :
    buildMask mode rows cols dets x y = 0 ↔
      ∃ d ∈ dets, d.prob > confThreshold ∧
        (mode = "Full" ∨ skipSelective (cleanText d.text) = false) ∧
        inRect (rectOf d rows cols) x y = true := by
  have haux : ∀ (l : List Detection) (m : Int → Int → Nat),
      (l.foldl (maskStep mode rows cols) m) x y = 0 ↔
        m x y = 0 ∨ ∃ d ∈ l, d.prob > confThreshold ∧
          (mode = "Full" ∨ skipSelective (cleanText d.text) = false) ∧
          inRect (rectOf d rows cols) x y = true := by
    intro l
    induction l with
    | nil =>
      intro m
      simp
    | cons d rest ih =>
      intro m
      rw [List.foldl_cons, ih, maskStep_zero]
      constructor
      · rintro ((hm | hd) | hrest)
        · exact Or.inl hm
        · exact Or.inr ⟨d, List.mem_cons_self d rest, hd⟩
        · obtain ⟨d2, hd2, hp2⟩ := hrest
          exact Or.inr ⟨d2, List.mem_cons_of_mem _ hd2, hp2⟩
      · rintro (hm | ⟨d2, hd2, hp2⟩)
        · exact Or.inl (Or.inl hm)
        · rcases List.mem_cons.mp hd2 with hEq | hmem
          · subst hEq
            exact Or.inl (Or.inr hp2)
          · exact Or.inr ⟨d2, hmem, hp2⟩
  unfold buildMask
  rw [haux]
  simp

/-- The detection of the C7 counterexample: a rotated quadrilateral
whose top-right corner extends far beyond its bottom-right corner. -/
def dC7 : Detection :=
  { tl := ⟨10, 10⟩, tr := ⟨100, 5⟩, br := ⟨50, 30⟩, bl := ⟨5, 40⟩,
    text := "ID 12345", prob := mkRat 9 10 }

/-- C7 counterexample: in Full mode, a pixel inside the axis-aligned
bounding rectangle of an above-threshold detection's quadrilateral is
left unmasked, because the code paints only the rectangle spanned by
the box's first (top-left) and third (bottom-right) corners. -/
theorem c7_counterexample :
    dC7.prob > confThreshold ∧
    inRect (specAABB dC7 200 200) 90 20 = true ∧
    inRect (rectOf dC7 200 200) 90 20 = false ∧
    buildMask "Full" 200 200 [dC7] 90 20 = 255 := by decide

/-- C7 (amended): in Full mode every detection above the confidence
threshold has its painted rectangle — the one spanned by its clamped
top-left and bottom-right corners — fully marked for redaction
regardless of text; and in general a pixel is marked exactly when some
above-threshold detection that is not exempted by the Selective-mode
text tests (keyword containment or single alphabetic character) covers
it with that rectangle. -/
theorem c7_redaction_policy :
    (∀ (rows cols : Nat) (dets : List Detection) (d : Detection) (x y : Int),
        d ∈ dets → d.prob > confThreshold →
        inRect (rectOf d rows cols) x y = true →
        buildMask "Full" rows cols dets x y = 0) ∧
    (∀ (mode : String) (rows cols : Nat) (dets : List Detection) (x y : Int),
        buildMask mode rows cols dets x y = 0 ↔
          ∃ d ∈ dets, d.prob > confThreshold ∧
            (mode = "Full" ∨ skipSelective (cleanText d.text) = false) ∧
            inRect (rectOf d rows cols) x y = true) :=
  ⟨fun rows cols dets d x y hd hp hr =>
    (buildMask_eq_zero_iff "Full" rows cols dets x y).mpr ⟨d, hd, hp, Or.inl rfl, hr⟩,
   fun mode rows cols dets x y => buildMask_eq_zero_iff mode rows cols dets x y⟩

/-- An axis-aligned above-threshold detection used to instantiate C7 and
C8. -/
def dW8 : Detection :=
  { tl := ⟨10, 10⟩, tr := ⟨30, 10⟩, br := ⟨30, 30⟩, bl := ⟨10, 30⟩,
    text := "PATIENT", prob := mkRat 9 10 }

/-- C7 amended, instantiated: the concrete detection masks a covered
pixel in Full mode. -/
theorem c7_redaction_policy_witness :
    buildMask "Full" 100 100 [dW8] 20 20 = 0 :=
  c7_redaction_policy.1 100 100 [dW8] dW8 20 20 (List.mem_singleton_self dW8) (by decide)
    (by decide)

/-- C8: the mask is applied to the original, non-normalized frame:
within any frame of the volume, a masked pixel is written as zero and an
unmasked pixel is written with exactly its original value; frames are
masked independently of one another. -/
theorem c8_mask_applies_to_original (mode : String) (rows cols : Nat)
    (dets : Nat → List Detection) (frames : Nat → Int → Int → Int)
    (i : Nat) (x y : Int) :
    (buildMask mode rows cols (dets i) x y = 0 →
      redactVolume mode rows cols dets frames i x y = 0) ∧
    (buildMask mode rows cols (dets i) x y ≠ 0 →
      redactVolume mode rows cols dets frames i x y = frames i x y) := by
  constructor
  · intro h
    simp [redactVolume, redact_frame, applyMask, h]
  · intro h
    simp [redactVolume, redact_frame, applyMask, h]

/-- C8 instantiated: the concrete detection zeroes a covered pixel and
leaves an uncovered pixel with its exact original value. -/
theorem c8_mask_applies_to_original_witness :
    redactVolume "Full" 100 100 (fun _ => [dW8]) (fun _ x y => x + 2 * y + 7) 0 20 20 = 0 ∧
    redactVolume "Full" 100 100 (fun _ => [dW8]) (fun _ x y => x + 2 * y + 7) 0 90 90 =
      90 + 2 * 90 + 7 :=
  ⟨(c8_mask_applies_to_original "Full" 100 100 (fun _ => [dW8])
      (fun _ x y => x + 2 * y + 7) 0 20 20).1 (by decide),
   (c8_mask_applies_to_original "Full" 100 100 (fun _ => [dW8])
      (fun _ x y => x + 2 * y + 7) 0 90 90).2 (by decide)⟩

end DICOMDeID
